import Mathlib

/-!
Verification of the chunk-streaming core of the `neuroglancer-mini`
repository against its specification.  Each TypeScript function named in a
claim is shallowly embedded as an executable Lean definition; machine
numbers are modelled as `Nat`/`Int`/`Rat`, typed arrays as lists, fallible
code as `Except`, and the asynchronous frontend/backend protocol as
explicit state-passing step functions.
-/

namespace NGMini

/-! ## Association-list helpers, standing in for the JavaScript `Map` used
by the sources (`Map.get`, `Map.set` appending new keys in insertion
order, `Map.delete`). -/

def alistGet {α β : Type} [DecidableEq α] : List (α × β) → α → Option β
  | [], _ => none
  | (k, v) :: rest, key => if k = key then some v else alistGet rest key

def alistSet {α β : Type} [DecidableEq α] : List (α × β) → α → β → List (α × β)
  | [], key, value => [(key, value)]
  | (k, v) :: rest, key, value =>
    if k = key then (k, value) :: rest else (k, v) :: alistSet rest key value

def alistRemove {α β : Type} [DecidableEq α] : List (α × β) → α → List (α × β)
  | [], _ => []
  | (k, v) :: rest, key =>
    if k = key then rest else (k, v) :: alistRemove rest key

/-! ## Section A: retry policy and `fetchOk` (`src/unnamed/part_000`).

The file declares `maxAttempts = 32`, `minDelayMilliseconds = 500`,
`maxDelayMilliseconds = 10000` and `pickDelay`, and documents `fetchOk` as
retrying transient HTTP errors (429, 503, 504).  `fetchOk` itself performs
a single lookup in the in-memory file tree (`getFile`) and throws a
permanent 404 `HttpError` when the path is absent; it contains no retry
loop, never calls `pickDelay`, and never inspects the status of the value
it finds. -/

def maxAttempts : ℕ := 32

def minDelayMilliseconds : ℚ := 500

def maxDelayMilliseconds : ℚ := 10000

/-- Embedding of `pickDelay` from `src/unnamed/part_000` lines 80-92.  The
call to `Math.random()` is modelled by the explicit parameter `r`, which
ranges over `[0, 1)`. -/
def pickDelay (attemptNumber : ℕ) (r : ℚ) : ℚ :=
  min (2 ^ attemptNumber * minDelayMilliseconds) (maxDelayMilliseconds / 2) * (1 + r)

/-- The deterministic factor of `pickDelay`: the jitter multiplies this base. -/
def baseDelay (attemptNumber : ℕ) : ℚ :=
  min (2 ^ attemptNumber * minDelayMilliseconds) (maxDelayMilliseconds / 2)

/-- Embedding of the `HttpError` data carried by `src/unnamed/part_000`
(only the fields `status` and `statusText` are relevant to the claims). -/
structure HttpError where
  status : ℕ
  statusText : String
deriving DecidableEq, Repr

/-- Embedding of the value space of `self.fileTree`: a JavaScript object
tree whose leaves are stored `Response` values.  A `Response` is modelled
by its `status` code only. -/
inductive FileTree
  | file (status : ℕ)
  | dir (entries : List (String × FileTree))

/-- Embedding of the traversal loop of `getFile` (`src/unnamed/part_000`
lines 102-120): walk the tree along the path parts; as soon as a part is
missing (`res[part] === undefined`) the result is `undefined`, modelled as
`none`.  The derivation of `parts` from the URL (split on `/`, drop empty
parts and the first component) happens before this loop and is taken as
given. -/
def getFile : FileTree → List String → Option FileTree
  | t, [] => some t
  | .file _, _ :: _ => none
  | .dir entries, p :: rest =>
    match alistGet entries p with
    | none => none
    | some t => getFile t rest

/-- Embedding of `fetchOk` (`src/unnamed/part_000` lines 122-136): one call
to `getFile`; if it yields `undefined`, throw `HttpError(url, 404, "File
not found")`; otherwise return the found value unchanged.  There is no
retry loop and the status of the found value is never examined. -/
def fetchOk (tree : FileTree) (parts : List String) : Except HttpError FileTree :=
  match getFile tree parts with
  | none => .error ⟨404, "File not found"⟩
  | some r => .ok r

/-- Concrete file tree used as the failing input for the retry claim: the
stored response at path `["vol"]` has the transient status 503. -/
def tree503 : FileTree := .dir [("vol", .file 503)]

/-! ## Section B: `decodeRawChunk`
(`src/src/sliceview/backend_chunk_decoders/raw.ts`). -/

/-- Embedding of the `DataType` enumeration of `sliceview/volume/base.js`
as used by `decodeRawChunk` and `getValueAt`. -/
inductive DataType
  | UINT8
  | INT8
  | UINT16
  | INT16
  | UINT32
  | INT32
  | UINT64
  | FLOAT32
deriving DecidableEq, Repr

/-- Bytes per element of each data type, mirroring `DATA_TYPE_BYTES` of
`util/data_type.js` (the standard sizes of the corresponding typed
arrays). -/
def DATA_TYPE_BYTES : DataType → ℕ
  | .UINT8 => 1
  | .INT8 => 1
  | .UINT16 => 2
  | .INT16 => 2
  | .UINT32 => 4
  | .INT32 => 4
  | .UINT64 => 8
  | .FLOAT32 => 4

inductive Endianness
  | little
  | big
deriving DecidableEq, Repr

/-- The platform endianness `ENDIANNESS` of `util/endian.js`; modelled as
little-endian, the layout of every platform the viewer runs on. -/
def ENDIANNESS : Endianness := .little

/-- Numeric value of an element stored as a little-endian byte list. -/
def assembleLE (bytes : List ℕ) : ℕ :=
  bytes.foldr (fun b acc => b + 256 * acc) 0

/-- Numeric value of an element's wire bytes under a given endianness. -/
def elementValue (e : Endianness) (bytes : List ℕ) : ℕ :=
  match e with
  | .little => assembleLE bytes
  | .big => assembleLE bytes.reverse

/-- The byte group backing element `i` of a typed-array view of width `w`
over `response`. -/
def elementBytes (response : List ℕ) (w i : ℕ) : List ℕ :=
  (response.drop (i * w)).take w

/-- Embedding of `makeDataTypeArrayView` of `util/data_type.js`: reinterpret
the response buffer as consecutive elements of `DATA_TYPE_BYTES dt` bytes
each, in platform byte order.  An element is modelled as its byte group. -/
def makeDataTypeArrayView (dt : DataType) (response : List ℕ) : List (List ℕ) :=
  (List.range (response.length / DATA_TYPE_BYTES dt)).map
    (fun i => elementBytes response (DATA_TYPE_BYTES dt) i)

/-- Embedding of `convertEndian` of `util/endian.js`: swap the byte order
within each element in place. -/
def convertEndian (data : List (List ℕ)) : List (List ℕ) :=
  data.map List.reverse

/-- Embedding of `decodeRawChunk`
(`src/src/sliceview/backend_chunk_decoders/raw.ts` lines 25-48): compare
the response length against `prod(chunkDataSize) * DATA_TYPE_BYTES
[dataType]`, throw on mismatch, otherwise build the typed-array view and
endian-convert it when the source endianness differs from the platform
endianness. -/
def decodeRawChunk (chunkDataSize : List ℕ) (dataType : DataType)
    (response : List ℕ) (endianness : Endianness) : Except String (List (List ℕ)) :=
  let numElements := chunkDataSize.prod
  let bytesPerElement := DATA_TYPE_BYTES dataType
  let expectedBytes := numElements * bytesPerElement
  if expectedBytes ≠ response.length then
    .error ("Raw-format chunk is " ++ toString response.length ++ " bytes, but "
      ++ toString numElements ++ " * " ++ toString bytesPerElement ++ " = "
      ++ toString expectedBytes ++ " bytes are expected.")
  else
    let data := makeDataTypeArrayView dataType response
    .ok (if endianness ≠ ENDIANNESS then convertEndian data else data)

/-! ## Section C: `UncompressedVolumeChunk.getValueAt`
(`src/src/sliceview/frontend.ts` lines 1113-1143). -/

/-- Result type of `getValueAt`: a plain number, or a `Uint64` built from
two consecutive 32-bit words. -/
inductive ChunkValue
  | num (n : ℕ)
  | u64 (low high : ℕ)
deriving DecidableEq, Repr

/-- Embedding of the index loop of `getValueAt`: `index += stride *
dataPosition[i]; stride *= chunkDataSize[i]` over `i < dataPosition.length`,
starting from `index = 0`, `stride = 1`. -/
def linearIndexGo : List ℕ → List ℕ → ℕ → ℕ
  | [], _, _ => 0
  | p :: ps, cs, stride => stride * p + linearIndexGo ps cs.tail (stride * cs.headD 0)

def linearIndex (chunkDataSize dataPosition : List ℕ) : ℕ :=
  linearIndexGo dataPosition chunkDataSize 1

/-- Embedding of `UncompressedVolumeChunk.getValueAt`: a missing data
buffer yields the source specification's fill value; otherwise the element
at the computed linear index is returned, as two 32-bit words for `UINT64`
data and as the raw array element for every other data type. -/
def getValueAt (data : Option (List ℕ)) (fillValue : ℕ) (chunkDataSize : List ℕ)
    (dataType : DataType) (dataPosition : List ℕ) : ChunkValue :=
  match data with
  | none => .num fillValue
  | some d =>
    let index := linearIndex chunkDataSize dataPosition
    match dataType with
    | .UINT64 => .u64 (d.getD (2 * index) 0) (d.getD (2 * index + 1) 0)
    | _ => .num (d.getD index 0)

/-! ## Section D: prefix completions (`src/src/util/completion.ts`). -/

/-- Modelled from the spec: `defaultStringCompare` lives in
`util/string.js`, which is not under `src/`; it is the standard
three-valued string comparator (negative when `a < b`, positive when
`a > b`, zero otherwise) over code-unit lexicographic order, modelled here
on character lists. -/
def defaultStringCompare (a b : List Char) : Int :=
  if a < b then -1 else if b < a then 1 else 0

/-- Boolean comparator under which a JavaScript `sort(defaultStringCompare)`
result is ordered: the comparator is nonpositive. -/
def compareLe (a b : List Char) : Bool :=
  decide (defaultStringCompare a b ≤ 0)

structure Completion where
  value : List Char
deriving DecidableEq, Repr

structure CompletionWithDescription where
  value : List Char
  description : Option (List Char)
deriving DecidableEq, Repr

/-- Embedding of `getPrefixMatches` (`src/src/util/completion.ts` lines
37-46): collect a completion for each option that starts with the prefix,
then sort with `defaultStringCompare` on the value (JavaScript
`Array.prototype.sort` is stable; modelled by a stable merge sort). -/
def getPrefixMatches (pre : List Char) (options : List (List Char)) : List Completion :=
  ((options.filter (fun o => pre.isPrefixOf o)).map
    (fun o => ({ value := o } : Completion))).mergeSort
      (fun a b => compareLe a.value b.value)

/-- Embedding of `getPrefixMatchesWithDescriptions`
(`src/src/util/completion.ts` lines 48-63). -/
def getPrefixMatchesWithDescriptions {T : Type} (pre : List Char) (options : List T)
    (getValue : T → List Char) (getDescription : T → Option (List Char)) :
    List CompletionWithDescription :=
  ((options.filter (fun x => pre.isPrefixOf (getValue x))).map
    (fun x => ({ value := getValue x, description := getDescription x } :
      CompletionWithDescription))).mergeSort
      (fun a b => compareLe a.value b.value)

/-! ## Section E: `SliceViewChunkSource.fetchChunk`
(`src/src/sliceview/frontend.ts` lines 433-479) and the per-position
waiter protocol. -/

/-- Embedding of the `ChunkState` enumeration of `chunk_manager/base.js`
as used by `fetchChunk`.  Modelled from the spec: `chunk_manager/base.js`
is not under `src/`; per the spec's lifecycle (`QUEUED →
SYSTEM_MEMORY_PENDING → SYSTEM_MEMORY → GPU_MEMORY`), the states in which
the chunk's data is available in system memory are exactly those at or
before `SYSTEM_MEMORY` in the numeric order used by the comparison
`existingChunk.state <= ChunkState.SYSTEM_MEMORY`. -/
inductive ChunkState
  | GPU_MEMORY
  | SYSTEM_MEMORY_WORKER
  | SYSTEM_MEMORY
  | DOWNLOADING
  | QUEUED
  | FAILED
  | EXPIRED
deriving DecidableEq, Repr

def ChunkState.toNat : ChunkState → ℕ
  | .GPU_MEMORY => 0
  | .SYSTEM_MEMORY_WORKER => 1
  | .SYSTEM_MEMORY => 2
  | .DOWNLOADING => 3
  | .QUEUED => 4
  | .FAILED => 5
  | .EXPIRED => 6

/-- A frontend chunk: its lifecycle state plus an abstract payload
identifier standing for the decoded data buffer. -/
structure FrontChunk where
  state : ChunkState
  payload : ℕ
deriving DecidableEq, Repr

/-- Grid key: `chunkGridPosition.join()` keys the `chunks` and
`chunkRequesters` maps; the comma-joined string of a grid position is in
bijection with the position itself, so the position is used as the key
directly. -/
abbrev GridKey : Type := List ℕ

/-- The resident fast-path test of `fetchChunk` (`frontend.ts` lines
440-443): the chunk exists and `existingChunk.state <=
ChunkState.SYSTEM_MEMORY`. -/
def chunkDataAvailable (c : FrontChunk) : Bool :=
  c.state.toNat ≤ ChunkState.SYSTEM_MEMORY.toNat

/-- The observable state of one `SliceViewChunkSource` frontend: its chunk
map, its `chunkRequesters` waiter map (waiters identified by numbers, kept
in registration order), and its reference count. -/
structure SourceFrontendState where
  chunks : List (GridKey × FrontChunk)
  chunkRequesters : List (GridKey × List ℕ)
  refCount : ℕ
deriving DecidableEq, Repr

/-- The chunk the fast path of `fetchChunk` would return: the entry of the
chunk map at the key, provided its state is at or before `SYSTEM_MEMORY`. -/
def residentChunk (st : SourceFrontendState) (pos : GridKey) : Option FrontChunk :=
  match alistGet st.chunks pos with
  | some c => if chunkDataAvailable c then some c else none
  | none => none

/-- Waiter list registered for a grid position (empty when the
`chunkRequesters` map has no entry). -/
def waitersFor (st : SourceFrontendState) (pos : GridKey) : List ℕ :=
  (alistGet st.chunkRequesters pos).getD []

/-- State change performed by the non-resident path of `fetchChunk`
(`frontend.ts` lines 446-460): `this.addRef()`, create the
`chunkRequesters` entry if absent, and push the new requester at the end
of the entry. -/
def registerWaiter (st : SourceFrontendState) (pos : GridKey) (waiterId : ℕ) :
    SourceFrontendState :=
  { chunks := st.chunks
    chunkRequesters := alistSet st.chunkRequesters pos (waitersFor st pos ++ [waiterId])
    refCount := st.refCount + 1 }

/-- Outcome of the synchronous part of one `fetchChunk` call: either the
promise is already resolved with `transform(chunk)` (fast path), or a
waiter was registered and the promise is pending. -/
inductive FetchOutcome (T : Type)
  | immediate (value : T)
  | pendingWaiter (waiter : ℕ)
deriving DecidableEq, Repr

structure FetchStepResult (T : Type) where
  outcome : FetchOutcome T
  state : SourceFrontendState
  rpcRequests : List GridKey
deriving DecidableEq, Repr

/-- Embedding of the synchronous part of
`SliceViewChunkSource.fetchChunk` (`frontend.ts` lines 433-467): if the
chunk map holds the key in a state at or before `SYSTEM_MEMORY`, return
`transform(existingChunk)` with no state change and no RPC message;
otherwise register a waiter and send one
`SLICEVIEW_REQUEST_CHUNK_RPC_ID` message carrying the grid position. -/
def fetchChunkStep {T : Type} (st : SourceFrontendState) (pos : GridKey)
    (transform : FrontChunk → T) (waiterId : ℕ) : FetchStepResult T :=
  match alistGet st.chunks pos with
  | some existingChunk =>
    if chunkDataAvailable existingChunk then
      { outcome := .immediate (transform existingChunk), state := st, rpcRequests := [] }
    else
      { outcome := .pendingWaiter waiterId
        state := registerWaiter st pos waiterId
        rpcRequests := [pos] }
  | none =>
    { outcome := .pendingWaiter waiterId
      state := registerWaiter st pos waiterId
      rpcRequests := [pos] }

/-- Modelled from the spec: the code that invokes the registered
`chunkRequesters` lives in `chunk_manager/frontend.js`, which is not under
`src/`.  Per the spec, `requestChunk` resolves once `SYSTEM_MEMORY` is
reached and "waiters are notified in the order they registered"; each
requester closure resolves its promise with `transform(chunk)`
(`frontend.ts` line 458).  The result pairs each waiter, in registration
order, with the value its call resolves to. -/
def notifyChunkReady {T : Type} (st : SourceFrontendState) (pos : GridKey)
    (c : FrontChunk) (transform : FrontChunk → T) : List (ℕ × T) :=
  (waitersFor st pos).map (fun w => (w, transform c))

/-- Iterated synchronous `fetchChunk` calls for one grid position with
consecutive waiter identifiers starting at `firstId`, collecting the RPC
request messages sent. -/
def runFetchesFrom {T : Type} (pos : GridKey) (transform : FrontChunk → T) :
    ℕ → ℕ → SourceFrontendState → SourceFrontendState × List GridKey
  | _, 0, st => (st, [])
  | firstId, n + 1, st =>
    let step := fetchChunkStep st pos transform firstId
    let rest := runFetchesFrom pos transform (firstId + 1) n step.state
    (rest.1, step.rpcRequests ++ rest.2)

/-- Modelled from the spec: the backend handler of
`SLICEVIEW_REQUEST_CHUNK_RPC_ID` and the queue manager's
`requestChunk` live in `sliceview/backend.js` / `chunk_manager/backend.js`,
which are not under `src/`.  Per the spec, `requestChunk` is idempotent:
if the chunk is already resident it is a no-op, and a request for a chunk
already queued or in flight updates its priority without starting a
second fetch.  The state tracks one chunk's backend status and how many
fetch operations have been started for it. -/
structure BackendChunkState where
  resident : Bool
  inFlight : Bool
  fetchCount : ℕ
deriving DecidableEq, Repr

def requestChunkBackend (b : BackendChunkState) : BackendChunkState :=
  if b.resident || b.inFlight then b
  else { resident := b.resident, inFlight := true, fetchCount := b.fetchCount + 1 }

/-- Backend processing of a list of chunk-request messages for the tracked
chunk. -/
def processRequests (b : BackendChunkState) (reqs : List GridKey) : BackendChunkState :=
  reqs.foldl (fun b _ => requestChunkBackend b) b

/-- Backend state of a chunk never requested, with no fetch in flight. -/
def backendIdle : BackendChunkState :=
  { resident := false, inFlight := false, fetchCount := 0 }

/-- Concrete source state used as a witness input: chunk `[0, 0]` resident
in `SYSTEM_MEMORY` with payload 42. -/
def stResident : SourceFrontendState :=
  { chunks := [([0, 0], { state := .SYSTEM_MEMORY, payload := 42 })]
    chunkRequesters := []
    refCount := 0 }

/-- Concrete source state used as a witness input: no chunks, no waiters. -/
def stEmptySource : SourceFrontendState :=
  { chunks := [], chunkRequesters := [], refCount := 0 }

/-- Concrete chunk used as a witness input. -/
def chunk42 : FrontChunk := { state := .SYSTEM_MEMORY, payload := 42 }

/-- Concrete chunk used as a witness input. -/
def chunk99 : FrontChunk := { state := .SYSTEM_MEMORY, payload := 99 }

/-! ## Section F: `SliceViewRenderLayer.addSource` / `removeSource`
(`src/src/sliceview/renderlayer.ts` lines 109-133). -/

/-- Embedding of `VisibleSourceInfo` (without the `source` back-pointer,
which always equals the map key). -/
structure VisibleSourceInfo (T : Type) where
  refCount : ℕ
  chunkTransform : T
deriving DecidableEq, Repr

/-- The per-render-layer visible-source registration: the `visibleSources`
map keyed by source identifier, plus a log of the reference-release
(`dispose`) calls the layer has made on sources.  `removeSource` in the
source never makes such a call (sources are held as `Borrowed<Source>`),
so the code never appends to the log. -/
structure LayerSourcesState (T : Type) where
  visibleSources : List (ℕ × VisibleSourceInfo T)
  releasedSources : List ℕ
deriving DecidableEq, Repr

/-- Embedding of `SliceViewRenderLayer.addSource` (`renderlayer.ts` lines
109-122): an already-registered source gets its `refCount` incremented and
its stored `chunkTransform` replaced; a new source is inserted with
`refCount` 1. -/
def addSource {T : Type} (st : LayerSourcesState T) (source : ℕ) (chunkTransform : T) :
    LayerSourcesState T :=
  match alistGet st.visibleSources source with
  | some info =>
    { visibleSources := alistSet st.visibleSources source
        { refCount := info.refCount + 1, chunkTransform := chunkTransform }
      releasedSources := st.releasedSources }
  | none =>
    { visibleSources := st.visibleSources ++
        [(source, { refCount := 1, chunkTransform := chunkTransform })]
      releasedSources := st.releasedSources }

/-- Embedding of `SliceViewRenderLayer.removeSource` (`renderlayer.ts`
lines 124-133): a source with `refCount ≠ 1` is decremented; at `refCount
= 1` the entry is deleted from the map.  No `dispose`/release call is made
on the source in either branch.  (The source asserts the entry exists with
`get(source)!`; an absent source is undefined behaviour there and is
modelled as a no-op.) -/
def removeSource {T : Type} (st : LayerSourcesState T) (source : ℕ) :
    LayerSourcesState T :=
  match alistGet st.visibleSources source with
  | none => st
  | some info =>
    if info.refCount ≠ 1 then
      { visibleSources := alistSet st.visibleSources source
          { refCount := info.refCount - 1, chunkTransform := info.chunkTransform }
        releasedSources := st.releasedSources }
    else
      { visibleSources := alistRemove st.visibleSources source
        releasedSources := st.releasedSources }

/-- Rendition of the release clause of the visible-source claim, following
the spec's words: the `removeSource` call that brings the refCount to zero
removes the entry from the visible-source map and releases the underlying
source reference synchronously in the same tick (i.e. the source is
recorded as released when `removeSource` returns). -/
def removeSourceReleasesOnZero (T : Type) : Prop :=
  ∀ (st : LayerSourcesState T) (source : ℕ) (info : VisibleSourceInfo T),
    alistGet st.visibleSources source = some info →
    info.refCount = 1 →
    alistGet (removeSource st source).visibleSources source = none ∧
      source ∈ (removeSource st source).releasedSources

/-! ## Section G: `getVolumetricTransformedSources` and
`getTransformedSource` (`src/src/sliceview/frontend.ts` lines 638-802). -/

inductive MessageSeverity
  | info
  | warning
  | error
deriving DecidableEq, Repr

/-- A diagnostic message as appended by `MessageList.addMessage`
(`util/message_list.js`, used by `frontend.ts`: a severity plus text). -/
structure Message where
  severity : MessageSeverity
  message : String
deriving DecidableEq, Repr

/-- The fields of a valid `RenderLayerTransform` consumed by the channel
validation loop of `getTransformedSource` (`frontend.ts` lines 698-716). -/
structure LayerTransform where
  layerDimensionNames : List String
  channelToRenderLayerDimensions : List ℕ
  channelSpaceShape : List ℕ
deriving DecidableEq, Repr

/-- Embedding of `RenderLayerTransformOrError`: either an error message
recorded by an upstream layer, or a valid transform. -/
inductive TransformOrError
  | failed (error : String)
  | ok (t : LayerTransform)
deriving DecidableEq, Repr

/-- One candidate single-resolution source as seen by
`getTransformedSource`: its specification's `chunkDataSize`, plus the
`channelToChunkDimensionIndices` of the chunk transform computed for it by
`getChunkTransformParameters` (`render_coordinate_transform.js`, outside
`src/`), with `-1` marking a channel dimension not mapped to any chunk
dimension. -/
structure SingleResSource where
  chunkDataSize : List ℕ
  channelToChunkDimensionIndices : List ℤ
deriving DecidableEq, Repr

/-- The error text thrown by `getTransformedSource` for a mismatched
channel dimension (`frontend.ts` lines 707-714). -/
def mismatchMessage (t : LayerTransform) (chunkDataSize : List ℕ)
    (channelDim : ℕ) (chunkDim : ℤ) : String :=
  "Channel dimension "
    ++ (t.layerDimensionNames.getD (t.channelToRenderLayerDimensions.getD channelDim 0) "")
    ++ " has extent " ++ toString (t.channelSpaceShape.getD channelDim 0)
    ++ " but corresponding chunk dimension has extent "
    ++ toString (chunkDataSize.getD chunkDim.toNat 0)

/-- Embedding of the channel-dimension validation loop of
`getTransformedSource` (`frontend.ts` lines 702-716): walk the channel
dimensions in order; skip unmapped ones (`chunkDim === -1`); throw on the
first whose chunk extent differs from the channel space shape's extent. -/
def checkChannelDimensionsFrom (t : LayerTransform) (chunkDataSize : List ℕ) :
    List ℤ → ℕ → Except String Unit
  | [], _ => .ok ()
  | chunkDim :: rest, channelDim =>
    if chunkDim = -1 then
      checkChannelDimensionsFrom t chunkDataSize rest (channelDim + 1)
    else if chunkDataSize.getD chunkDim.toNat 0 ≠ t.channelSpaceShape.getD channelDim 0 then
      .error (mismatchMessage t chunkDataSize channelDim chunkDim)
    else
      checkChannelDimensionsFrom t chunkDataSize rest (channelDim + 1)

def checkChannelDimensions (t : LayerTransform) (s : SingleResSource) : Except String Unit :=
  checkChannelDimensionsFrom t s.chunkDataSize s.channelToChunkDimensionIndices 0

/-- Embedding of `getTransformedSource` restricted to its validating /
fallible part: the geometric fields of the returned transformed source
(chunk layout, display bounds, effective voxel size) are not consumed by
any claim and are represented by the source record itself. -/
def getTransformedSource (t : LayerTransform) (s : SingleResSource) :
    Except String SingleResSource :=
  match checkChannelDimensions t s with
  | .error e => .error e
  | .ok _ => .ok s

/-- Exception propagation through a mapped computation: the first error
thrown while transforming the elements in order aborts the whole map, as
an uncaught JavaScript exception aborts `allSources.map`. -/
def mapExcept {α β : Type} (f : α → Except String β) : List α → Except String (List β)
  | [] => .ok []
  | x :: rest =>
    match f x with
    | .error e => .error e
    | .ok y =>
      match mapExcept f rest with
      | .error e => .error e
      | .ok ys => .ok (y :: ys)

/-- The fields of `displayDimensionRenderInfo` used to format the
catch-block error message (`frontend.ts` lines 792-799). -/
structure DisplayDimensionRenderInfo where
  globalDimensionNames : List String
  displayDimensionIndices : List ℤ
deriving DecidableEq, Repr

/-- The dimension description interpolated into the catch-block message:
display dimension indices other than `-1`, mapped to global dimension
names, joined with a comma and a no-break space. -/
def dimensionDesc (ddri : DisplayDimensionRenderInfo) : String :=
  String.intercalate ", "
    ((ddri.displayDimensionIndices.filter (fun i => i ≠ -1)).map
      (fun i => ddri.globalDimensionNames.getD i.toNat ""))

/-- Embedding of `getVolumetricTransformedSources` (`frontend.ts` lines
638-802).  The message list starts cleared (`messages.clearMessages()`).
A transform marked as an error yields no sources and one error message.
Otherwise every candidate source of every scale is transformed; the first
exception thrown by `getTransformedSource` is caught, and yields no
sources and one error message prefixed with the cross-section dimension
description.  The function always returns; no exception escapes it. -/
def getVolumetricTransformedSources (ddri : DisplayDimensionRenderInfo)
    (transform : TransformOrError) (allSources : List (List SingleResSource)) :
    List (List SingleResSource) × List Message :=
  match transform with
  | .failed e => ([], [{ severity := .error, message := e }])
  | .ok t =>
    match mapExcept (fun scales => mapExcept (getTransformedSource t) scales) allSources with
    | .ok transformed => (transformed, [])
    | .error e =>
      ([], [{ severity := .error,
              message := "Cannot render (" ++ dimensionDesc ddri
                ++ ") cross section: " ++ e }])

/-- One visible render layer as consumed by the visible-layer update: its
transform value and its candidate sources. -/
structure LayerModel where
  transform : TransformOrError
  sources : List (List SingleResSource)
deriving DecidableEq, Repr

/-- The per-layer part of `updateVisibleLayersNow` (`frontend.ts` lines
266-312): each ready render layer gets a fresh message list and its own
`getVolumetricTransformedSources` result; layers are processed
independently. -/
def updateVisibleLayerSources (ddri : DisplayDimensionRenderInfo)
    (layers : List LayerModel) : List (List (List SingleResSource) × List Message) :=
  layers.map (fun l => getVolumetricTransformedSources ddri l.transform l.sources)

/-- Concrete transform used as a witness input: one channel dimension `c`
of extent 3. -/
def layerTransform0 : LayerTransform :=
  { layerDimensionNames := ["x", "y", "c"]
    channelToRenderLayerDimensions := [2]
    channelSpaceShape := [3] }

/-- Concrete candidate source whose chunk extent 2 on the mapped chunk
dimension 2 mismatches the channel extent 3. -/
def srcBad : SingleResSource :=
  { chunkDataSize := [4, 4, 2], channelToChunkDimensionIndices := [2] }

/-- Concrete candidate source agreeing with `layerTransform0` on the
channel dimension. -/
def srcGood : SingleResSource :=
  { chunkDataSize := [4, 4, 3], channelToChunkDimensionIndices := [2] }

/-- Concrete display-dimension render info used as a witness input. -/
def ddri0 : DisplayDimensionRenderInfo :=
  { globalDimensionNames := ["x", "y", "z"], displayDimensionIndices := [0, 1, 2] }

/-! ## Theorems -/

/-- C5: the claim reads `pickDelay`'s companions `maxAttempts = 32` and the
retry documentation as bounding the retries of a transiently failing fetch.
The code of `fetchOk` contradicts its own documentation ("If the request
fails due to a transient error (429, 503, 504), retry"): it performs a
single `getFile` lookup, returns whatever it finds without examining its
status (here a stored response with transient status 503 is returned as a
success), and a missing path is immediately a permanent 404 `HttpError`;
`maxAttempts` and `pickDelay` are never consulted. -/
theorem fetchOk_no_retry_evidence :
    fetchOk tree503 ["vol"] = .ok (.file 503) ∧
    fetchOk tree503 ["missing"] = .error { status := 404, statusText := "File not found" } ∧
    maxAttempts = 32 := by
  refine ⟨rfl, ?_, rfl⟩
  simp [fetchOk, tree503, getFile, alistGet]

/-- C6: for every attempt number `n ≥ 0` and jitter `r ∈ [0, 1)`,
`pickDelay n r = min(2^n * 500, 5000) * (1 + r)`; the delay lies within
the doubling-with-jitter bounds `[base, 2*base)` where the base doubles
with each successive attempt until the cap, and every delay is below
10000 milliseconds. -/
theorem pickDelay_spec (n : ℕ) (r : ℚ) (h0 : 0 ≤ r) (h1 : r < 1) :
    pickDelay n r = min (2 ^ n * 500) 5000 * (1 + r) ∧
    baseDelay n ≤ pickDelay n r ∧
    pickDelay n r < 2 * baseDelay n ∧
    pickDelay n r < 10000 ∧
    (2 ^ (n + 1) * 500 ≤ (5000 : ℚ) → baseDelay (n + 1) = 2 * baseDelay n) := by
  have hb : baseDelay n = min ((2 : ℚ) ^ n * 500) 5000 := by
    unfold baseDelay minDelayMilliseconds maxDelayMilliseconds
    norm_num
  have hpd : pickDelay n r = baseDelay n * (1 + r) := by
    unfold pickDelay baseDelay
    rfl
  have hpow : (0 : ℚ) < 2 ^ n * 500 := by positivity
  have hbpos : 0 < baseDelay n := by
    rw [hb]
    exact lt_min hpow (by norm_num)
  have hble : baseDelay n ≤ 5000 := by
    rw [hb]
    exact min_le_right _ _
  refine ⟨by rw [hpd, hb], ?_, ?_, ?_, ?_⟩
  · rw [hpd]
    nlinarith
  · rw [hpd]
    nlinarith
  · rw [hpd]
    nlinarith
  · intro hcap
    have hcap' : (2 : ℚ) ^ n * 500 ≤ 5000 := by
      have hx : (2 : ℚ) ^ (n + 1) * 500 = 2 * (2 ^ n * 500) := by ring
      linarith
    have h1' : baseDelay (n + 1) = (2 : ℚ) ^ (n + 1) * 500 := by
      rw [show baseDelay (n + 1) = min ((2 : ℚ) ^ (n + 1) * 500) 5000 by
        unfold baseDelay minDelayMilliseconds maxDelayMilliseconds; norm_num]
      exact min_eq_left hcap
    have h2' : baseDelay n = (2 : ℚ) ^ n * 500 := by
      rw [hb]
      exact min_eq_left hcap'
    rw [h1', h2']
    ring

/-- Witness for `pickDelay_spec` at attempt 3 with jitter 1/2. -/
theorem pickDelay_spec_witness :
    0 ≤ (1 / 2 : ℚ) ∧ (1 / 2 : ℚ) < 1 ∧
    (pickDelay 3 (1 / 2) = min (2 ^ 3 * 500) 5000 * (1 + 1 / 2) ∧
     baseDelay 3 ≤ pickDelay 3 (1 / 2) ∧
     pickDelay 3 (1 / 2) < 2 * baseDelay 3 ∧
     pickDelay 3 (1 / 2) < 10000 ∧
     (2 ^ (3 + 1) * 500 ≤ (5000 : ℚ) → baseDelay (3 + 1) = 2 * baseDelay 3)) :=
  ⟨by norm_num, by norm_num, pickDelay_spec 3 (1 / 2) (by norm_num) (by norm_num)⟩

theorem linearIndexGo_eq_sum :
    ∀ (ps cs : List ℕ) (stride : ℕ), ps.length ≤ cs.length →
      linearIndexGo ps cs stride =
        ∑ i ∈ Finset.range ps.length, stride * ps.getD i 0 * (cs.take i).prod
  | [], _, _, _ => by simp [linearIndexGo]
  | p :: ps, [], _, h => by simp at h
  | p :: ps, c :: cs, stride, h => by
    have ih := linearIndexGo_eq_sum ps cs (stride * c) (by simpa using h)
    simp only [linearIndexGo, List.tail_cons, List.headD_cons]
    rw [ih, List.length_cons, Finset.sum_range_succ']
    have hcongr :
        (∑ i ∈ Finset.range ps.length,
            stride * ((p :: ps).getD (i + 1) 0) * (((c :: cs).take (i + 1)).prod)) =
        ∑ i ∈ Finset.range ps.length, stride * c * ps.getD i 0 * (cs.take i).prod := by
      refine Finset.sum_congr rfl (fun i _ => ?_)
      simp only [List.getD_cons_succ, List.take_succ_cons, List.prod_cons]
      ring
    rw [hcongr]
    simp only [List.getD_cons_zero, List.take_zero, List.prod_nil]
    ring

/-- C9: `getValueAt` returns the specification's fill value for every
position when the data buffer is missing; when data is present it reads
the element at the linear index whose stride for dimension `i` is the
product of the `chunkDataSize` entries before `i` (first dimension varying
fastest), returning a two-word `Uint64` for `UINT64` data and the raw
array element for every other data type. -/
theorem getValueAt_spec (fillValue : ℕ) (chunkDataSize dataPosition : List ℕ)
    (dataType : DataType) :
    getValueAt none fillValue chunkDataSize dataType dataPosition = .num fillValue ∧
    (dataPosition.length ≤ chunkDataSize.length →
      linearIndex chunkDataSize dataPosition =
        ∑ i ∈ Finset.range dataPosition.length,
          dataPosition.getD i 0 * ((chunkDataSize.take i).prod)) ∧
    (∀ d, dataType ≠ .UINT64 →
      getValueAt (some d) fillValue chunkDataSize dataType dataPosition =
        .num (d.getD (linearIndex chunkDataSize dataPosition) 0)) ∧
    (∀ d, getValueAt (some d) fillValue chunkDataSize .UINT64 dataPosition =
      .u64 (d.getD (2 * linearIndex chunkDataSize dataPosition) 0)
        (d.getD (2 * linearIndex chunkDataSize dataPosition + 1) 0)) := by
  refine ⟨rfl, ?_, ?_, ?_⟩
  · intro h
    have := linearIndexGo_eq_sum dataPosition chunkDataSize 1 h
    unfold linearIndex
    rw [this]
    exact Finset.sum_congr rfl (fun i _ => by ring)
  · intro d hne
    cases dataType <;> first | rfl | exact absurd rfl hne
  · intro d
    rfl

/-- Witness for `getValueAt_spec`: a 2x3 chunk of UINT8 data at position
(1, 2), and a missing buffer with fill value 9. -/
theorem getValueAt_spec_witness :
    getValueAt none 9 [2, 3] .UINT8 [1, 2] = .num 9 ∧
    ([1, 2] : List ℕ).length ≤ ([2, 3] : List ℕ).length ∧
    linearIndex [2, 3] [1, 2] =
      ∑ i ∈ Finset.range ([1, 2] : List ℕ).length,
        ([1, 2] : List ℕ).getD i 0 * ((([2, 3] : List ℕ).take i).prod) ∧
    DataType.UINT8 ≠ DataType.UINT64 ∧
    getValueAt (some [10, 11, 12, 13, 14, 15]) 9 [2, 3] .UINT8 [1, 2] =
      .num ([10, 11, 12, 13, 14, 15].getD (linearIndex [2, 3] [1, 2]) 0) ∧
    getValueAt (some [10, 11, 12, 13]) 9 [2, 3] .UINT64 [1, 2] =
      .u64 ([10, 11, 12, 13].getD (2 * linearIndex [2, 3] [1, 2]) 0)
        ([10, 11, 12, 13].getD (2 * linearIndex [2, 3] [1, 2] + 1) 0) :=
  ⟨(getValueAt_spec 9 [2, 3] [1, 2] .UINT8).1,
   by decide,
   (getValueAt_spec 9 [2, 3] [1, 2] .UINT8).2.1 (by decide),
   by decide,
   (getValueAt_spec 9 [2, 3] [1, 2] .UINT8).2.2.1 [10, 11, 12, 13, 14, 15] (by decide),
   (getValueAt_spec 9 [2, 3] [1, 2] .UINT64).2.2.2 [10, 11, 12, 13]⟩

theorem DATA_TYPE_BYTES_pos (dt : DataType) : 0 < DATA_TYPE_BYTES dt := by
  cases dt <;> decide

theorem flatten_range_elementBytes (w : ℕ) (hw : 0 < w) :
    ∀ (n : ℕ) (resp : List ℕ), resp.length = n * w →
      ((List.range n).map (fun i => elementBytes resp w i)).flatten = resp := by
  intro n
  induction n with
  | zero =>
    intro resp hlen
    simp only [Nat.zero_mul] at hlen
    simp [List.eq_nil_of_length_eq_zero hlen]
  | succ n ih =>
    intro resp hlen
    rw [List.range_succ_eq_map]
    simp only [List.map_cons, List.map_map, List.flatten_cons]
    have h0 : elementBytes resp w 0 = resp.take w := by
      simp [elementBytes]
    have hshift : ∀ i : ℕ,
        elementBytes resp w (Nat.succ i) = elementBytes (resp.drop w) w i := by
      intro i
      unfold elementBytes
      rw [List.drop_drop, Nat.succ_mul, Nat.add_comm]
    have hmaps :
        (List.range n).map ((fun i => elementBytes resp w i) ∘ Nat.succ) =
          (List.range n).map (fun i => elementBytes (resp.drop w) w i) :=
      List.map_congr_left (fun i _ => hshift i)
    rw [h0, hmaps, ih (resp.drop w) (by simp [List.length_drop, hlen, Nat.succ_mul])]
    exact List.take_append_drop w resp

/-- C8: `decodeRawChunk` throws exactly when the response byte length
differs from the product of the chunk's per-dimension extents times the
declared element type's byte size; when it does not throw, the decoded
buffer has one element per voxel, its element byte groups tile the
response exactly, and each element's platform-order value equals the wire
bytes' value under the source endianness (endian conversion applied when
the endianness differs from the platform's). -/
theorem decodeRawChunk_spec (chunkDataSize : List ℕ) (dataType : DataType)
    (response : List ℕ) (endianness : Endianness) :
    ((∃ m, decodeRawChunk chunkDataSize dataType response endianness = .error m) ↔
      response.length ≠ chunkDataSize.prod * DATA_TYPE_BYTES dataType) ∧
    (response.length = chunkDataSize.prod * DATA_TYPE_BYTES dataType →
      ∃ v, decodeRawChunk chunkDataSize dataType response endianness = .ok v ∧
        v.length = chunkDataSize.prod ∧
        ((List.range chunkDataSize.prod).map
          (fun i => elementBytes response (DATA_TYPE_BYTES dataType) i)).flatten = response ∧
        ∀ i, i < chunkDataSize.prod →
          elementValue ENDIANNESS (v.getD i []) =
            elementValue endianness (elementBytes response (DATA_TYPE_BYTES dataType) i)) := by
  have hw : 0 < DATA_TYPE_BYTES dataType := DATA_TYPE_BYTES_pos dataType
  constructor
  · unfold decodeRawChunk
    by_cases h : chunkDataSize.prod * DATA_TYPE_BYTES dataType = response.length
    · rw [if_neg (fun hc => hc h)]
      constructor
      · rintro ⟨m, hm⟩
        cases hm
      · intro hne
        exact absurd h.symm hne
    · rw [if_pos h]
      exact ⟨fun _ => fun hc => h hc.symm, fun _ => ⟨_, rfl⟩⟩
  · intro hlen
    have hcount : response.length / DATA_TYPE_BYTES dataType = chunkDataSize.prod := by
      rw [hlen]
      exact Nat.mul_div_cancel _ hw
    have hview : makeDataTypeArrayView dataType response =
        (List.range chunkDataSize.prod).map
          (fun i => elementBytes response (DATA_TYPE_BYTES dataType) i) := by
      unfold makeDataTypeArrayView
      rw [hcount]
    have hok : decodeRawChunk chunkDataSize dataType response endianness =
        .ok (if endianness ≠ ENDIANNESS then
              convertEndian (makeDataTypeArrayView dataType response)
            else makeDataTypeArrayView dataType response) := by
      unfold decodeRawChunk
      rw [if_neg (fun hc => hc hlen.symm)]
    refine ⟨_, hok, ?_, ?_, ?_⟩
    · by_cases he : endianness = ENDIANNESS <;>
        simp [he, convertEndian, hview]
    · exact flatten_range_elementBytes _ hw _ _ hlen
    · intro i hi
      have hviewlen : (makeDataTypeArrayView dataType response).length =
          chunkDataSize.prod := by
        rw [hview]
        simp
      cases endianness with
      | little =>
        have hidx : i < (makeDataTypeArrayView dataType response).length := by
          rw [hviewlen]
          exact hi
        simp only [ENDIANNESS, ne_eq, not_true_eq_false, if_false]
        rw [List.getD_eq_getElem _ _ hidx, List.getElem_of_eq hview hidx]
        simp only [List.getElem_map, List.getElem_range]
      | big =>
        simp only [ENDIANNESS, ne_eq, reduceCtorEq, not_false_eq_true, if_true]
        have hclen : (convertEndian (makeDataTypeArrayView dataType response)).length =
            chunkDataSize.prod := by
          simp [convertEndian, hviewlen]
        rw [List.getD_eq_getElem _ _ (by rw [hclen]; exact hi)]
        simp only [convertEndian, List.getElem_map]
        rw [List.getElem_of_eq hview (by rw [hviewlen]; exact hi)]
        simp only [List.getElem_map, List.getElem_range]
        rfl

/-- Witness for `decodeRawChunk_spec`: a 2-voxel UINT16 chunk of 4
big-endian bytes, and the same chunk with a truncated 3-byte response. -/
theorem decodeRawChunk_spec_witness :
    (([1, 2, 3] : List ℕ).length ≠ ([2] : List ℕ).prod * DATA_TYPE_BYTES .UINT16 →
      ∃ m, decodeRawChunk [2] .UINT16 [1, 2, 3] .big = .error m) ∧
    ([1, 2, 3, 4] : List ℕ).length = ([2] : List ℕ).prod * DATA_TYPE_BYTES .UINT16 ∧
    (∃ v, decodeRawChunk [2] .UINT16 [1, 2, 3, 4] .big = .ok v ∧
      v.length = ([2] : List ℕ).prod ∧
      ((List.range ([2] : List ℕ).prod).map
        (fun i => elementBytes [1, 2, 3, 4] (DATA_TYPE_BYTES .UINT16) i)).flatten
          = [1, 2, 3, 4] ∧
      ∀ i, i < ([2] : List ℕ).prod →
        elementValue ENDIANNESS (v.getD i []) =
          elementValue .big (elementBytes [1, 2, 3, 4] (DATA_TYPE_BYTES .UINT16) i)) :=
  ⟨fun h => (decodeRawChunk_spec [2] .UINT16 [1, 2, 3] .big).1.mpr h,
   by decide,
   (decodeRawChunk_spec [2] .UINT16 [1, 2, 3, 4] .big).2 (by decide)⟩

theorem alistGet_alistSet_self {α β : Type} [DecidableEq α] :
    ∀ (l : List (α × β)) (k : α) (v : β), alistGet (alistSet l k v) k = some v
  | [], k, v => by simp [alistSet, alistGet]
  | (a, b) :: rest, k, v => by
    by_cases h : a = k
    · simp [alistSet, alistGet, h]
    · simp only [alistSet, alistGet, if_neg h]
      exact alistGet_alistSet_self rest k v

theorem alistGet_append_single {α β : Type} [DecidableEq α] :
    ∀ (l : List (α × β)) (k : α) (v : β), alistGet l k = none →
      alistGet (l ++ [(k, v)]) k = some v
  | [], k, v, _ => by simp [alistGet]
  | (a, b) :: rest, k, v, h => by
    by_cases hak : a = k
    · simp [alistGet, hak] at h
    · simp only [alistGet, if_neg hak] at h
      simp only [List.cons_append, alistGet, if_neg hak]
      exact alistGet_append_single rest k v h

theorem alistGet_eq_none_of_not_mem {α β : Type} [DecidableEq α] :
    ∀ (l : List (α × β)) (k : α), k ∉ l.map Prod.fst → alistGet l k = none
  | [], _, _ => rfl
  | (a, b) :: rest, k, h => by
    simp only [List.map_cons, List.mem_cons] at h
    push_neg at h
    have hne : ¬ a = k := fun hak => h.1 hak.symm
    simp only [alistGet, if_neg hne]
    exact alistGet_eq_none_of_not_mem rest k h.2

theorem alistGet_alistRemove_self {α β : Type} [DecidableEq α] :
    ∀ (l : List (α × β)) (k : α), (l.map Prod.fst).Nodup →
      alistGet (alistRemove l k) k = none
  | [], _, _ => rfl
  | (a, b) :: rest, k, h => by
    simp only [List.map_cons, List.nodup_cons] at h
    by_cases hak : a = k
    · simp only [alistRemove, if_pos hak]
      exact alistGet_eq_none_of_not_mem rest k (hak ▸ h.1)
    · simp only [alistRemove, if_neg hak, alistGet, if_neg hak]
      exact alistGet_alistRemove_self rest k h.2

/-- C7 counterexample: at the concrete state holding one source with
refCount 1, the `removeSource` call that brings the refCount to zero
removes the map entry but performs no release of the source reference, so
the claim's release clause is false. -/
theorem removeSource_releases_counterexample :
    ¬ removeSourceReleasesOnZero ℕ := by
  intro h
  have hmem := (h { visibleSources := [(0, { refCount := 1, chunkTransform := 7 })],
                    releasedSources := [] } 0 { refCount := 1, chunkTransform := 7 }
      rfl rfl).2
  simp [removeSource, alistGet, alistRemove] at hmem

/-- C7 (amended): `addSource` on an already-registered chunk source
increments its refCount by one and replaces its stored chunk transform,
and on a new source inserts an entry with refCount 1; `removeSource`
decrements the refCount, and the call that brings it to zero removes the
entry from the visible-source map synchronously — but neither call
releases a reference on the underlying source (the layer holds the source
only as a borrowed reference, and the release log is unchanged). -/
theorem addSource_removeSource_spec {T : Type} (st : LayerSourcesState T)
    (source : ℕ) (tr : T)
    (hnd : (st.visibleSources.map Prod.fst).Nodup) :
    (∀ info, alistGet st.visibleSources source = some info →
      alistGet (addSource st source tr).visibleSources source =
        some { refCount := info.refCount + 1, chunkTransform := tr }) ∧
    (alistGet st.visibleSources source = none →
      alistGet (addSource st source tr).visibleSources source =
        some { refCount := 1, chunkTransform := tr }) ∧
    (∀ info, alistGet st.visibleSources source = some info → info.refCount ≠ 1 →
      alistGet (removeSource st source).visibleSources source =
        some { refCount := info.refCount - 1, chunkTransform := info.chunkTransform }) ∧
    (∀ info, alistGet st.visibleSources source = some info → info.refCount = 1 →
      alistGet (removeSource st source).visibleSources source = none) ∧
    (addSource st source tr).releasedSources = st.releasedSources ∧
    (removeSource st source).releasedSources = st.releasedSources := by
  refine ⟨?_, ?_, ?_, ?_, ?_, ?_⟩
  · intro info hinfo
    simp only [addSource, hinfo]
    exact alistGet_alistSet_self _ _ _
  · intro hnone
    simp only [addSource, hnone]
    exact alistGet_append_single _ _ _ hnone
  · intro info hinfo hne
    simp only [removeSource, hinfo, if_pos hne]
    exact alistGet_alistSet_self _ _ _
  · intro info hinfo hone
    simp only [removeSource, hinfo, if_neg (not_not_intro hone)]
    exact alistGet_alistRemove_self _ _ hnd
  · cases halist : alistGet st.visibleSources source <;> simp [addSource, halist]
  · cases halist : alistGet st.visibleSources source
    · simp [removeSource, halist]
    · simp only [removeSource, halist]
      split <;> rfl

/-- Witness for `addSource_removeSource_spec` at a concrete two-source
registration with a nonempty release log. -/
theorem addSource_removeSource_spec_witness :
    (((({ visibleSources := [(0, { refCount := 2, chunkTransform := 5 }),
                             (1, { refCount := 1, chunkTransform := 6 })],
          releasedSources := [3] } : LayerSourcesState ℕ).visibleSources.map
            Prod.fst).Nodup) ∧
    alistGet (addSource
      ({ visibleSources := [(0, { refCount := 2, chunkTransform := 5 }),
                            (1, { refCount := 1, chunkTransform := 6 })],
         releasedSources := [3] } : LayerSourcesState ℕ) 0 9).visibleSources 0 =
      some { refCount := 3, chunkTransform := 9 } ∧
    alistGet (addSource
      ({ visibleSources := [(0, { refCount := 2, chunkTransform := 5 }),
                            (1, { refCount := 1, chunkTransform := 6 })],
         releasedSources := [3] } : LayerSourcesState ℕ) 2 9).visibleSources 2 =
      some { refCount := 1, chunkTransform := 9 } ∧
    alistGet (removeSource
      ({ visibleSources := [(0, { refCount := 2, chunkTransform := 5 }),
                            (1, { refCount := 1, chunkTransform := 6 })],
         releasedSources := [3] } : LayerSourcesState ℕ) 0).visibleSources 0 =
      some { refCount := 1, chunkTransform := 5 } ∧
    alistGet (removeSource
      ({ visibleSources := [(0, { refCount := 2, chunkTransform := 5 }),
                            (1, { refCount := 1, chunkTransform := 6 })],
         releasedSources := [3] } : LayerSourcesState ℕ) 1).visibleSources 1 = none ∧
    (removeSource
      ({ visibleSources := [(0, { refCount := 2, chunkTransform := 5 }),
                            (1, { refCount := 1, chunkTransform := 6 })],
         releasedSources := [3] } : LayerSourcesState ℕ) 1).releasedSources = [3]) :=
  ⟨by decide,
   (addSource_removeSource_spec _ 0 9 (by decide)).1 { refCount := 2, chunkTransform := 5 }
     (by decide),
   (addSource_removeSource_spec _ 2 9 (by decide)).2.1 (by decide),
   (addSource_removeSource_spec _ 0 9 (by decide)).2.2.1
     { refCount := 2, chunkTransform := 5 } (by decide) (by decide),
   (addSource_removeSource_spec _ 1 9 (by decide)).2.2.2.1
     { refCount := 1, chunkTransform := 6 } (by decide) (by decide),
   ((addSource_removeSource_spec _ 1 9 (by decide)).2.2.2.2.2).trans (by decide)⟩

theorem fetchChunkStep_resident {T : Type} (st : SourceFrontendState) (pos : GridKey)
    (transform : FrontChunk → T) (waiterId : ℕ) (c : FrontChunk)
    (h : residentChunk st pos = some c) :
    fetchChunkStep st pos transform waiterId =
      { outcome := .immediate (transform c), state := st, rpcRequests := [] } := by
  cases hg : alistGet st.chunks pos with
  | none => simp [residentChunk, hg] at h
  | some c0 =>
    by_cases hav : chunkDataAvailable c0
    · have hc : c0 = c := by simpa [residentChunk, hg, hav] using h
      subst hc
      simp [fetchChunkStep, hg, hav]
    · simp [residentChunk, hg, hav] at h

theorem fetchChunkStep_not_resident {T : Type} (st : SourceFrontendState) (pos : GridKey)
    (transform : FrontChunk → T) (waiterId : ℕ)
    (h : residentChunk st pos = none) :
    fetchChunkStep st pos transform waiterId =
      { outcome := .pendingWaiter waiterId
        state := registerWaiter st pos waiterId
        rpcRequests := [pos] } := by
  cases hg : alistGet st.chunks pos with
  | none => simp [fetchChunkStep, hg]
  | some c0 =>
    by_cases hav : chunkDataAvailable c0
    · simp [residentChunk, hg, hav] at h
    · simp [fetchChunkStep, hg, hav]

theorem waitersFor_registerWaiter (st : SourceFrontendState) (pos : GridKey) (waiterId : ℕ) :
    waitersFor (registerWaiter st pos waiterId) pos = waitersFor st pos ++ [waiterId] := by
  unfold waitersFor registerWaiter
  rw [alistGet_alistSet_self]
  rfl

theorem residentChunk_registerWaiter (st : SourceFrontendState) (pos pos' : GridKey)
    (waiterId : ℕ) :
    residentChunk (registerWaiter st pos' waiterId) pos = residentChunk st pos := rfl

/-- C1: a `fetchChunk` call for a grid position whose chunk is present in
the source's chunk map in a state at or before `SYSTEM_MEMORY` resolves
immediately with `transform` applied to that chunk, leaving the state
untouched, registering no waiter and sending no chunk request; every other
call registers one waiter at the end of the per-position list, sends one
chunk request, and its pending promise is resolved with
`transform(chunk)` exactly by the system-memory notification for that
position. -/
theorem fetchChunk_spec {T : Type} (st : SourceFrontendState) (pos : GridKey)
    (transform : FrontChunk → T) (waiterId : ℕ) :
    (∀ c, residentChunk st pos = some c →
      fetchChunkStep st pos transform waiterId =
        { outcome := .immediate (transform c), state := st, rpcRequests := [] }) ∧
    (residentChunk st pos = none →
      fetchChunkStep st pos transform waiterId =
        { outcome := .pendingWaiter waiterId
          state := registerWaiter st pos waiterId
          rpcRequests := [pos] } ∧
      waitersFor (fetchChunkStep st pos transform waiterId).state pos =
        waitersFor st pos ++ [waiterId] ∧
      ∀ c, notifyChunkReady (fetchChunkStep st pos transform waiterId).state pos c transform =
        (waitersFor st pos ++ [waiterId]).map (fun w => (w, transform c))) := by
  refine ⟨fun c h => fetchChunkStep_resident st pos transform waiterId c h, fun h => ?_⟩
  have hstep := fetchChunkStep_not_resident st pos transform waiterId h
  refine ⟨hstep, ?_, ?_⟩
  · rw [hstep]
    exact waitersFor_registerWaiter st pos waiterId
  · intro c
    rw [hstep]
    unfold notifyChunkReady
    rw [waitersFor_registerWaiter st pos waiterId]

/-- Witness for `fetchChunk_spec`: a source holding chunk `[0, 0]` in
`SYSTEM_MEMORY` (fast path), and an empty source (waiter path). -/
theorem fetchChunk_spec_witness :
    residentChunk stResident [0, 0] = some chunk42 ∧
    fetchChunkStep stResident [0, 0] FrontChunk.payload 5 =
      { outcome := .immediate (FrontChunk.payload chunk42), state := stResident,
        rpcRequests := [] } ∧
    residentChunk stEmptySource [0, 0] = none ∧
    fetchChunkStep stEmptySource [0, 0] FrontChunk.payload 5 =
      { outcome := .pendingWaiter 5,
        state := registerWaiter stEmptySource [0, 0] 5,
        rpcRequests := [[0, 0]] } ∧
    notifyChunkReady (fetchChunkStep stEmptySource [0, 0] FrontChunk.payload 5).state
        [0, 0] chunk42 FrontChunk.payload =
      (waitersFor stEmptySource [0, 0] ++ [5]).map
        (fun w => (w, FrontChunk.payload chunk42)) :=
  ⟨by decide,
   (fetchChunk_spec stResident [0, 0] FrontChunk.payload 5).1 chunk42 (by decide),
   by decide,
   ((fetchChunk_spec stEmptySource [0, 0] FrontChunk.payload 5).2 (by decide)).1,
   ((fetchChunk_spec stEmptySource [0, 0] FrontChunk.payload 5).2 (by decide)).2.2 chunk42⟩

theorem runFetchesFrom_register {T : Type} (pos : GridKey) (transform : FrontChunk → T)
    (n : ℕ) :
    ∀ (firstId : ℕ) (st : SourceFrontendState), residentChunk st pos = none →
      (runFetchesFrom pos transform firstId n st).2 = List.replicate n pos ∧
      waitersFor (runFetchesFrom pos transform firstId n st).1 pos =
        waitersFor st pos ++ (List.range n).map (fun j => firstId + j) ∧
      (runFetchesFrom pos transform firstId n st).1.chunks = st.chunks := by
  induction n with
  | zero =>
    intro firstId st _
    exact ⟨rfl, by simp [runFetchesFrom], rfl⟩
  | succ n ih =>
    intro firstId st hres
    have hstep := fetchChunkStep_not_resident st pos transform firstId hres
    have hres' : residentChunk (registerWaiter st pos firstId) pos = none := by
      rw [residentChunk_registerWaiter]
      exact hres
    have ihx := ih (firstId + 1) (registerWaiter st pos firstId) hres'
    have hrun : runFetchesFrom pos transform firstId (n + 1) st =
        ((runFetchesFrom pos transform (firstId + 1) n (registerWaiter st pos firstId)).1,
          [pos] ++
            (runFetchesFrom pos transform (firstId + 1) n (registerWaiter st pos firstId)).2) := by
      simp only [runFetchesFrom, hstep]
    rw [hrun]
    refine ⟨?_, ?_, ?_⟩
    · rw [ihx.1]
      rfl
    · rw [ihx.2.1, waitersFor_registerWaiter, List.append_assoc]
      congr 1
      simp only [List.range_succ_eq_map, List.map_cons, List.map_map,
        List.singleton_append, Nat.add_zero]
      exact congrArg (List.cons firstId)
        (List.map_congr_left (fun j _ => by
          simp only [Function.comp_apply]
          omega))
    · rw [ihx.2.2]
      rfl

theorem requestChunkBackend_stable :
    requestChunkBackend { resident := false, inFlight := true, fetchCount := 1 } =
      { resident := false, inFlight := true, fetchCount := 1 } := rfl

theorem processRequests_stable (b : BackendChunkState) (h : requestChunkBackend b = b) :
    ∀ (reqs : List GridKey), processRequests b reqs = b := by
  intro reqs
  induction reqs with
  | nil => rfl
  | cons r rest ih =>
    show processRequests (requestChunkBackend b) rest = b
    rw [h]
    exact ih

theorem processRequests_replicate_one (pos : GridKey) (n : ℕ) (hn : 1 ≤ n) :
    processRequests backendIdle (List.replicate n pos) =
      { resident := false, inFlight := true, fetchCount := 1 } := by
  cases n with
  | zero => omega
  | succ n =>
    rw [List.replicate_succ]
    show processRequests (requestChunkBackend backendIdle) (List.replicate n pos) = _
    exact processRequests_stable _ requestChunkBackend_stable _

/-- C2: issuing `n ≥ 1` concurrent `fetchChunk` calls for one grid
position while the chunk is neither resident nor being waited for sends
`n` chunk-request messages of which the idempotent backend starts exactly
one fetch; each call appends one waiter to the shared per-position list,
the list ends up in registration order `0, …, n-1`, and the
system-memory notification resolves all `n` calls, in that order, with
the same chunk payload. -/
theorem fetchChunk_coalescing_spec {T : Type} (st0 : SourceFrontendState)
    (pos : GridKey) (transform : FrontChunk → T) (n : ℕ)
    (hn : 1 ≤ n) (hres : residentChunk st0 pos = none)
    (hw : waitersFor st0 pos = []) :
    (runFetchesFrom pos transform 0 n st0).2 = List.replicate n pos ∧
    processRequests backendIdle (runFetchesFrom pos transform 0 n st0).2 =
      { resident := false, inFlight := true, fetchCount := 1 } ∧
    waitersFor (runFetchesFrom pos transform 0 n st0).1 pos = List.range n ∧
    ∀ c, notifyChunkReady (runFetchesFrom pos transform 0 n st0).1 pos c transform =
      (List.range n).map (fun w => (w, transform c)) := by
  have hrun := runFetchesFrom_register pos transform n 0 st0 hres
  have hwaiters : waitersFor (runFetchesFrom pos transform 0 n st0).1 pos = List.range n := by
    rw [hrun.2.1, hw, List.nil_append]
    simp
  refine ⟨hrun.1, ?_, hwaiters, ?_⟩
  · rw [hrun.1]
    exact processRequests_replicate_one pos n hn
  · intro c
    unfold notifyChunkReady
    rw [hwaiters]

/-- Witness for `fetchChunk_coalescing_spec`: three concurrent calls for
grid position `[1, 0]` on an empty source. -/
theorem fetchChunk_coalescing_spec_witness :
    1 ≤ 3 ∧
    residentChunk stEmptySource [1, 0] = none ∧
    waitersFor stEmptySource [1, 0] = [] ∧
    ((runFetchesFrom [1, 0] FrontChunk.payload 0 3 stEmptySource).2 =
      List.replicate 3 [1, 0] ∧
    processRequests backendIdle
        (runFetchesFrom [1, 0] FrontChunk.payload 0 3 stEmptySource).2 =
      { resident := false, inFlight := true, fetchCount := 1 } ∧
    waitersFor (runFetchesFrom [1, 0] FrontChunk.payload 0 3 stEmptySource).1 [1, 0] =
      List.range 3) ∧
    notifyChunkReady (runFetchesFrom [1, 0] FrontChunk.payload 0 3 stEmptySource).1 [1, 0]
        chunk99 FrontChunk.payload =
      (List.range 3).map (fun w => (w, FrontChunk.payload chunk99)) :=
  ⟨by decide, by decide, by decide,
   ⟨(fetchChunk_coalescing_spec stEmptySource [1, 0] FrontChunk.payload 3
       (by decide) (by decide) (by decide)).1,
    (fetchChunk_coalescing_spec stEmptySource [1, 0] FrontChunk.payload 3
       (by decide) (by decide) (by decide)).2.1,
    (fetchChunk_coalescing_spec stEmptySource [1, 0] FrontChunk.payload 3
       (by decide) (by decide) (by decide)).2.2.1⟩,
   (fetchChunk_coalescing_spec stEmptySource [1, 0] FrontChunk.payload 3
       (by decide) (by decide) (by decide)).2.2.2 chunk99⟩

/-- C3: a render layer whose transform value is marked as an error gets an
empty transformed-source list and exactly one error-severity diagnostic
message; `getVolumetricTransformedSources` is total, so the error never
escapes the visible-layer update as an exception, and the per-layer update
is a pointwise map, so the error affects only that layer's entry. -/
theorem transform_error_spec (ddri : DisplayDimensionRenderInfo) (e : String)
    (allSources : List (List SingleResSource)) (layers : List LayerModel) :
    getVolumetricTransformedSources ddri (.failed e) allSources =
      ([], [{ severity := .error, message := e }]) ∧
    (updateVisibleLayerSources ddri layers).length = layers.length ∧
    (∀ i, i < layers.length →
      (updateVisibleLayerSources ddri layers).getD i ([], []) =
        getVolumetricTransformedSources ddri
          ((layers.getD i { transform := .failed "", sources := [] }).transform)
          ((layers.getD i { transform := .failed "", sources := [] }).sources)) := by
  refine ⟨rfl, by simp [updateVisibleLayerSources], ?_⟩
  intro i hi
  unfold updateVisibleLayerSources
  rw [List.getD_eq_getElem _ _ (by simpa using hi), List.getElem_map,
    List.getD_eq_getElem _ _ hi]

/-- Witness for `transform_error_spec`: a two-layer list whose first layer
has a transform marked with a rank-mismatch error. -/
theorem transform_error_spec_witness :
    getVolumetricTransformedSources ddri0 (.failed "rank mismatch") [[srcGood]] =
      ([], [{ severity := .error, message := "rank mismatch" }]) ∧
    (updateVisibleLayerSources ddri0
      [{ transform := .failed "rank mismatch", sources := [[srcGood]] },
       { transform := .ok layerTransform0, sources := [[srcGood]] }]).length = 2 ∧
    (0 : ℕ) < 2 ∧
    (updateVisibleLayerSources ddri0
      [{ transform := .failed "rank mismatch", sources := [[srcGood]] },
       { transform := .ok layerTransform0, sources := [[srcGood]] }]).getD 0 ([], []) =
      getVolumetricTransformedSources ddri0
        (([{ transform := .failed "rank mismatch", sources := [[srcGood]] },
            { transform := .ok layerTransform0, sources := [[srcGood]] }].getD 0
              ({ transform := .failed "", sources := [] } : LayerModel)).transform)
        (([{ transform := .failed "rank mismatch", sources := [[srcGood]] },
            { transform := .ok layerTransform0, sources := [[srcGood]] }].getD 0
              ({ transform := .failed "", sources := [] } : LayerModel)).sources) :=
  ⟨(transform_error_spec ddri0 "rank mismatch" [[srcGood]] []).1,
   (transform_error_spec ddri0 "rank mismatch" [[srcGood]]
      [{ transform := .failed "rank mismatch", sources := [[srcGood]] },
       { transform := .ok layerTransform0, sources := [[srcGood]] }]).2.1,
   by decide,
   (transform_error_spec ddri0 "rank mismatch" [[srcGood]]
      [{ transform := .failed "rank mismatch", sources := [[srcGood]] },
       { transform := .ok layerTransform0, sources := [[srcGood]] }]).2.2 0 (by decide)⟩

theorem checkChannelDimensionsFrom_cons (t : LayerTransform) (cds : List ℕ)
    (i : ℤ) (rest : List ℤ) (c0 : ℕ) :
    checkChannelDimensionsFrom t cds (i :: rest) c0 =
      if i = -1 then checkChannelDimensionsFrom t cds rest (c0 + 1)
      else if cds.getD i.toNat 0 ≠ t.channelSpaceShape.getD c0 0 then
        .error (mismatchMessage t cds c0 i)
      else checkChannelDimensionsFrom t cds rest (c0 + 1) := rfl

theorem getElem_cons_zero_opt {α : Type} (a : α) (l : List α) : (a :: l)[0]? = some a := by
  simp

theorem checkChannelDimensionsFrom_error_iff (t : LayerTransform) (cds : List ℕ) :
    ∀ (idxs : List ℤ) (c0 : ℕ),
      (∃ m, checkChannelDimensionsFrom t cds idxs c0 = .error m) ↔
      ∃ k i, idxs[k]? = some i ∧ i ≠ -1 ∧
        cds.getD i.toNat 0 ≠ t.channelSpaceShape.getD (c0 + k) 0
  | [], c0 => by
    simp [checkChannelDimensionsFrom]
  | i :: rest, c0 => by
    rw [checkChannelDimensionsFrom_cons]
    by_cases hi : i = -1
    · rw [if_pos hi, checkChannelDimensionsFrom_error_iff t cds rest (c0 + 1)]
      constructor
      · rintro ⟨k, j, hk, hj, hm⟩
        refine ⟨k + 1, j, by simpa using hk, hj, ?_⟩
        have hc : c0 + 1 + k = c0 + (k + 1) := by omega
        rw [← hc]
        exact hm
      · rintro ⟨k, j, hk, hj, hm⟩
        cases k with
        | zero =>
          rw [getElem_cons_zero_opt, Option.some.injEq] at hk
          exact absurd (hk ▸ hi) hj
        | succ k =>
          refine ⟨k, j, by simpa using hk, hj, ?_⟩
          have hc : c0 + 1 + k = c0 + (k + 1) := by omega
          rw [hc]
          exact hm
    · rw [if_neg hi]
      by_cases hmis : cds.getD i.toNat 0 ≠ t.channelSpaceShape.getD c0 0
      · rw [if_pos hmis]
        constructor
        · intro _
          exact ⟨0, i, getElem_cons_zero_opt i rest, hi, by simpa using hmis⟩
        · intro _
          exact ⟨mismatchMessage t cds c0 i, rfl⟩
      · rw [if_neg hmis, checkChannelDimensionsFrom_error_iff t cds rest (c0 + 1)]
        constructor
        · rintro ⟨k, j, hk, hj, hm⟩
          refine ⟨k + 1, j, by simpa using hk, hj, ?_⟩
          have hc : c0 + 1 + k = c0 + (k + 1) := by omega
          rw [← hc]
          exact hm
        · rintro ⟨k, j, hk, hj, hm⟩
          cases k with
          | zero =>
            rw [getElem_cons_zero_opt, Option.some.injEq] at hk
            subst hk
            rw [Nat.add_zero] at hm
            exact absurd hm hmis
          | succ k =>
            refine ⟨k, j, by simpa using hk, hj, ?_⟩
            have hc : c0 + 1 + k = c0 + (k + 1) := by omega
            rw [hc]
            exact hm

theorem checkChannelDimensionsFrom_error_name (t : LayerTransform) (cds : List ℕ) :
    ∀ (idxs : List ℤ) (c0 : ℕ) (m : String),
      checkChannelDimensionsFrom t cds idxs c0 = .error m →
      ∃ k i, idxs[k]? = some i ∧ i ≠ -1 ∧
        cds.getD i.toNat 0 ≠ t.channelSpaceShape.getD (c0 + k) 0 ∧
        m = mismatchMessage t cds (c0 + k) i
  | [], _, m => by
    intro h
    cases h
  | i :: rest, c0, m => by
    rw [checkChannelDimensionsFrom_cons]
    intro h
    by_cases hi : i = -1
    · rw [if_pos hi] at h
      obtain ⟨k, j, hk, hj, hm, hmsg⟩ :=
        checkChannelDimensionsFrom_error_name t cds rest (c0 + 1) m h
      have hc : c0 + 1 + k = c0 + (k + 1) := by omega
      exact ⟨k + 1, j, by simpa using hk, hj, hc ▸ hm, hc ▸ hmsg⟩
    · rw [if_neg hi] at h
      by_cases hmis : cds.getD i.toNat 0 ≠ t.channelSpaceShape.getD c0 0
      · rw [if_pos hmis] at h
        have hmsg : m = mismatchMessage t cds c0 i := by
          cases h
          rfl
        refine ⟨0, i, getElem_cons_zero_opt i rest, hi, ?_, ?_⟩
        · rw [Nat.add_zero]
          exact hmis
        · rw [Nat.add_zero]
          exact hmsg
      · rw [if_neg hmis] at h
        obtain ⟨k, j, hk, hj, hm, hmsg⟩ :=
          checkChannelDimensionsFrom_error_name t cds rest (c0 + 1) m h
        have hc : c0 + 1 + k = c0 + (k + 1) := by omega
        exact ⟨k + 1, j, by simpa using hk, hj, hc ▸ hm, hc ▸ hmsg⟩

theorem mapExcept_error_of_mem {α β : Type} (f : α → Except String β) :
    ∀ (l : List α) (x : α), x ∈ l → (∃ e, f x = .error e) →
      ∃ m, mapExcept f l = .error m
  | [], x, hx, _ => absurd hx (List.not_mem_nil x)
  | y :: rest, x, hx, hex => by
    cases hfy : f y with
    | error e => exact ⟨e, by simp [mapExcept, hfy]⟩
    | ok v =>
      rcases List.mem_cons.mp hx with hxy | hxr
      · obtain ⟨e, he⟩ := hex
        rw [hxy, hfy] at he
        cases he
      · obtain ⟨m, hm⟩ := mapExcept_error_of_mem f rest x hxr hex
        exact ⟨m, by simp [mapExcept, hfy, hm]⟩

/-- C4: a candidate single-resolution source has a failing channel
validation exactly when some channel dimension maps to a chunk dimension
(index not `-1`) whose chunk extent differs from the channel space
shape's extent; every raised error message names the mismatched dimension
with both extents; and the error is surfaced to the consuming layer as
one error diagnostic with zero transformed sources — a mismatch is never
silently tolerated. -/
theorem channel_mismatch_spec (t : LayerTransform) (s : SingleResSource) :
    ((∃ m, checkChannelDimensions t s = .error m) ↔
      ∃ k chunkDim, s.channelToChunkDimensionIndices[k]? = some chunkDim ∧
        chunkDim ≠ -1 ∧
        s.chunkDataSize.getD chunkDim.toNat 0 ≠ t.channelSpaceShape.getD k 0) ∧
    (∀ m, checkChannelDimensions t s = .error m →
      ∃ k chunkDim, s.channelToChunkDimensionIndices[k]? = some chunkDim ∧
        chunkDim ≠ -1 ∧
        s.chunkDataSize.getD chunkDim.toNat 0 ≠ t.channelSpaceShape.getD k 0 ∧
        m = mismatchMessage t s.chunkDataSize k chunkDim) ∧
    (∀ (ddri : DisplayDimensionRenderInfo) (allSources : List (List SingleResSource))
        (scales : List SingleResSource), scales ∈ allSources → s ∈ scales →
      (∃ m, checkChannelDimensions t s = .error m) →
      ∃ m, getVolumetricTransformedSources ddri (.ok t) allSources =
        ([], [{ severity := .error,
                message := "Cannot render (" ++ dimensionDesc ddri
                  ++ ") cross section: " ++ m }])) := by
  refine ⟨?_, ?_, ?_⟩
  · rw [show checkChannelDimensions t s =
        checkChannelDimensionsFrom t s.chunkDataSize s.channelToChunkDimensionIndices 0
      from rfl]
    rw [checkChannelDimensionsFrom_error_iff t s.chunkDataSize
      s.channelToChunkDimensionIndices 0]
    simp
  · intro m hm
    obtain ⟨k, j, hk, hj, hmis, hmsg⟩ :=
      checkChannelDimensionsFrom_error_name t s.chunkDataSize
        s.channelToChunkDimensionIndices 0 m hm
    exact ⟨k, j, hk, hj, by simpa using hmis, by simpa using hmsg⟩
  · intro ddri allSources scales hscales hs hex
    obtain ⟨m0, hm0⟩ := hex
    have hgts : getTransformedSource t s = .error m0 := by
      simp [getTransformedSource, hm0]
    obtain ⟨m1, hm1⟩ :=
      mapExcept_error_of_mem (getTransformedSource t) scales s hs ⟨m0, hgts⟩
    obtain ⟨m2, hm2⟩ :=
      mapExcept_error_of_mem (fun scales => mapExcept (getTransformedSource t) scales)
        allSources scales hscales ⟨m1, hm1⟩
    exact ⟨m2, by simp [getVolumetricTransformedSources, hm2]⟩

/-- Witness for `channel_mismatch_spec`: `srcBad` maps channel dimension
`c` (extent 3) to chunk dimension 2 of extent 2. -/
theorem channel_mismatch_spec_witness :
    (∃ m, checkChannelDimensions layerTransform0 srcBad = .error m) ∧
    (∃ k chunkDim, srcBad.channelToChunkDimensionIndices[k]? = some chunkDim ∧
      chunkDim ≠ -1 ∧
      srcBad.chunkDataSize.getD chunkDim.toNat 0 ≠
        layerTransform0.channelSpaceShape.getD k 0 ∧
      mismatchMessage layerTransform0 srcBad.chunkDataSize 0 2 =
        mismatchMessage layerTransform0 srcBad.chunkDataSize k chunkDim) ∧
    (∃ m, getVolumetricTransformedSources ddri0 (.ok layerTransform0) [[srcBad]] =
      ([], [{ severity := .error,
              message := "Cannot render (" ++ dimensionDesc ddri0
                ++ ") cross section: " ++ m }])) :=
  ⟨(channel_mismatch_spec layerTransform0 srcBad).1.mpr ⟨0, 2, rfl, by decide, by decide⟩,
   (channel_mismatch_spec layerTransform0 srcBad).2.1
     (mismatchMessage layerTransform0 srcBad.chunkDataSize 0 2) rfl,
   (channel_mismatch_spec layerTransform0 srcBad).2.2 ddri0 [[srcBad]] [srcBad]
     (by simp) (by simp)
     ((channel_mismatch_spec layerTransform0 srcBad).1.mpr ⟨0, 2, rfl, by decide, by decide⟩)⟩

theorem compareLe_iff (a b : List Char) : compareLe a b = true ↔ a ≤ b := by
  unfold compareLe defaultStringCompare
  by_cases h1 : a < b
  · rw [if_pos h1]
    simp [le_of_lt h1]
  · by_cases h2 : b < a
    · rw [if_neg h1, if_pos h2]
      simp [not_le.mpr h2]
    · rw [if_neg h1, if_neg h2]
      simp [le_of_not_lt h2]

theorem compareLe_trans (a b c : List Char) (hab : compareLe a b = true)
    (hbc : compareLe b c = true) : compareLe a c = true :=
  compareLe_iff a c |>.mpr (le_trans (compareLe_iff a b |>.mp hab) (compareLe_iff b c |>.mp hbc))

theorem compareLe_total (a b : List Char) : (compareLe a b || compareLe b a) = true := by
  rcases le_total a b with h | h
  · rw [compareLe_iff a b |>.mpr h]
    rfl
  · rw [compareLe_iff b a |>.mpr h, Bool.or_true]

/-- C10: `getPrefixMatches` returns exactly one completion for each option
that starts with the prefix and none for any other option (the result is
a permutation of the filtered options, as completions), sorted by
`defaultStringCompare` on the completion value; likewise
`getPrefixMatchesWithDescriptions` with its key-extraction function. -/
theorem getPrefixMatches_spec {T : Type} (pre : List Char) (options : List (List Char))
    (opts : List T) (getValue : T → List Char) (getDescription : T → Option (List Char)) :
    (getPrefixMatches pre options).Perm
      ((options.filter (fun o => pre.isPrefixOf o)).map
        (fun o => ({ value := o } : Completion))) ∧
    List.Sorted (fun a b : Completion => defaultStringCompare a.value b.value ≤ 0)
      (getPrefixMatches pre options) ∧
    (getPrefixMatchesWithDescriptions pre opts getValue getDescription).Perm
      ((opts.filter (fun x => pre.isPrefixOf (getValue x))).map
        (fun x => ({ value := getValue x, description := getDescription x } :
          CompletionWithDescription))) ∧
    List.Sorted
      (fun a b : CompletionWithDescription => defaultStringCompare a.value b.value ≤ 0)
      (getPrefixMatchesWithDescriptions pre opts getValue getDescription) := by
  refine ⟨List.mergeSort_perm _ _, ?_, List.mergeSort_perm _ _, ?_⟩
  · have hs := @List.sorted_mergeSort Completion
      (fun a b => compareLe a.value b.value)
      (fun a b c hab hbc => compareLe_trans _ _ _ hab hbc)
      (fun a b => compareLe_total _ _)
      ((options.filter (fun o => pre.isPrefixOf o)).map
        (fun o => ({ value := o } : Completion)))
    exact hs.imp (fun h => of_decide_eq_true h)
  · have hs := @List.sorted_mergeSort CompletionWithDescription
      (fun a b => compareLe a.value b.value)
      (fun a b c hab hbc => compareLe_trans _ _ _ hab hbc)
      (fun a b => compareLe_total _ _)
      ((opts.filter (fun x => pre.isPrefixOf (getValue x))).map
        (fun x => ({ value := getValue x, description := getDescription x } :
          CompletionWithDescription)))
    exact hs.imp (fun h => of_decide_eq_true h)

end NGMini
